import Mathlib

/-!
Shallow embedding of the transport-control layer of the modplayer
experiments (src/modplayer_regroover.c, src/interactive.c,
src/modplayer_full.c): the command queue, the mute vector and its
reapplication, the key dispatch of the control loop, the
pattern-loop / loop-till-row state machine ticks, and the command/jump
phase of the SDL audio callback.  Engine effects (set_position,
set_channel_volume) are modelled as an emitted call list; the module's
static tables (order -> pattern, pattern -> row count) as functions.
Machine ints are modelled as Int (orders, rows, the -1 sentinels) and
Nat (channel indices, queue indices via Fin); the exact float constants
0.0 / 1.0 pushed as channel gains are modelled as the rationals 0 and 1.
-/

namespace Modplayer

/-- An (order, row) position of the engine's position cursor. -/
structure Pos where
  order : Int
  row : Int
deriving DecidableEq, Repr

/-- A call issued to the external playback engine. -/
inductive EngineCall where
  | setPosition (order : Int) (row : Int)
  | setChannelVolume (ch : Nat) (gain : Rat)
deriving DecidableEq, Repr

/-- PlaybackCommandType from modplayer_regroover.c lines 11-15. -/
inductive PlaybackCommandType where
  | PLAYBACK_NONE
  | PLAYBACK_QUEUE_ORDER
  | PLAYBACK_LOOP_TILL_ROW
deriving DecidableEq, Repr

/-- PlaybackCommand from modplayer_regroover.c lines 17-21. -/
structure PlaybackCommand where
  type : PlaybackCommandType
  order : Int
  row : Int
deriving DecidableEq, Repr

/-- MAX_COMMANDS from modplayer_regroover.c line 23. -/
abbrev MAX_COMMANDS : Nat := 8

/-- The command queue fields of AudioData (modplayer_regroover.c lines
41-43): a slot array of MAX_COMMANDS entries and the head/tail indices,
which the C code keeps in [0, MAX_COMMANDS) via the % arithmetic. -/
structure CmdQueue where
  slots : Fin MAX_COMMANDS → PlaybackCommand
  head : Fin MAX_COMMANDS
  tail : Fin MAX_COMMANDS

/-- enqueue_command from modplayer_regroover.c lines 150-158: compute
next_tail = (tail+1) % MAX_COMMANDS; when next_tail == head the queue is
full and the command is silently dropped, otherwise it is written at
tail and tail advances. -/
def enqueue_command (q : CmdQueue) (c : PlaybackCommand) : CmdQueue :=
  let next_tail := q.tail + 1
  if next_tail ≠ q.head then
    { q with
      slots := fun i => if i = q.tail then c else q.slots i
      tail := next_tail }
  else q

/-- Number of commands pending in the queue (distance from head to tail
modulo MAX_COMMANDS). -/
def queueCount (q : CmdQueue) : Nat :=
  (q.tail.val + MAX_COMMANDS - q.head.val) % MAX_COMMANDS

/-- Index i steps past the head, modulo MAX_COMMANDS. -/
def finMod (i : Nat) : Fin MAX_COMMANDS :=
  ⟨i % MAX_COMMANDS, Nat.mod_lt _ (by norm_num [MAX_COMMANDS])⟩

/-- The pending commands, in FIFO order from head to tail. -/
def queueList (q : CmdQueue) : List PlaybackCommand :=
  (List.range (queueCount q)).map (fun i => q.slots (q.head + finMod i))

/-- A queue with head = tail = h0 (empty; the initial state has
h0 = 0, and every drain leaves head = tail). -/
def emptyQueueAt (h0 : Fin MAX_COMMANDS) : CmdQueue :=
  { slots := fun _ => ⟨.PLAYBACK_NONE, 0, 0⟩, head := h0, tail := h0 }

/-- Enqueue a list of commands left to right. -/
def enqueueAll (q : CmdQueue) (cmds : List PlaybackCommand) : CmdQueue :=
  cmds.foldl enqueue_command q

/-- The static per-module tables the code reads from the engine:
openmpt_module_get_order_pattern, openmpt_module_get_pattern_num_rows,
openmpt_module_get_num_orders. -/
structure ModuleInfo where
  orderPattern : Int → Int
  patternRows : Int → Int
  numOrders : Int

/-- The transport-control fields of AudioData (modplayer_regroover.c
lines 25-56), minus the queue (kept separate) and the engine handles. -/
structure AudioData where
  interactive_ok : Bool
  num_channels : Nat
  mute_states : List Bool
  pitch_factor : Rat
  pattern_mode : Bool
  loop_pattern : Int
  loop_order : Int
  paused : Bool
  queued_order : Int
  queued_row : Int
  has_queued_jump : Bool
  loop_till_row : Int
  is_looping_till : Bool
  pending_pattern_mode_order : Int
deriving DecidableEq, Repr

/-- The gain pushed for a mute flag: 0.0 muted, 1.0 unmuted
(the C expression mute_states[ch] ? 0.0 : 1.0). -/
def gainFor (muted : Bool) : Rat := if muted then 0 else 1

/-- reapply_mutes from modplayer_regroover.c lines 129-135: when the
interactive interface is available, push the gain of every channel
0 .. num_channels-1; otherwise do nothing. -/
def reapplyCalls (ad : AudioData) : List EngineCall :=
  if ad.interactive_ok then
    (List.range ad.num_channels).map
      (fun ch => .setChannelVolume ch (gainFor (ad.mute_states.getD ch false)))
  else []

/-- One iteration of the switch in process_commands
(modplayer_regroover.c lines 163-183): apply a single dequeued command
to the transport state, returning the new state and the engine calls
issued. -/
def applyCommand (m : ModuleInfo) (ad : AudioData) (cmd : PlaybackCommand) :
    AudioData × List EngineCall :=
  match cmd.type with
  | .PLAYBACK_QUEUE_ORDER =>
    if ad.pattern_mode then
      ({ ad with pending_pattern_mode_order := cmd.order }, [])
    else
      ({ ad with queued_order := cmd.order, queued_row := cmd.row,
                 has_queued_jump := true }, [])
  | .PLAYBACK_LOOP_TILL_ROW =>
    let ad' := { ad with
      loop_order := cmd.order
      loop_pattern := m.orderPattern cmd.order
      loop_till_row := cmd.row
      is_looping_till := true }
    (ad', .setPosition cmd.order 0 :: reapplyCalls ad')
  | .PLAYBACK_NONE => (ad, [])

/-- Sequential application of a command list (the effect of draining
those commands in order): each command fully updates the state before
the next is applied; calls are concatenated in order. -/
def applyAll (m : ModuleInfo) (ad : AudioData) :
    List PlaybackCommand → AudioData × List EngineCall
  | [] => (ad, [])
  | c :: cs =>
    let r1 := applyCommand m ad c
    let r2 := applyAll m r1.1 cs
    (r2.1, r1.2 ++ r2.2)

/-- Fin-level fact behind the termination of the drain loop: advancing
head by one strictly decreases the head-to-tail distance while the
queue is non-empty. -/
theorem count_step_lt : ∀ h t : Fin MAX_COMMANDS, h ≠ t →
    (t.val + MAX_COMMANDS - (h + 1).val) % MAX_COMMANDS
      < (t.val + MAX_COMMANDS - h.val) % MAX_COMMANDS := by decide

/-- process_commands from modplayer_regroover.c lines 160-186: while
head != tail, apply the command at head and advance head modulo
MAX_COMMANDS. -/
def process_commands (m : ModuleInfo) (ad : AudioData) (q : CmdQueue) :
    AudioData × CmdQueue × List EngineCall :=
  if h : q.head = q.tail then (ad, q, [])
  else
    let cmd := q.slots q.head
    let r1 := applyCommand m ad cmd
    let r2 := process_commands m r1.1 { q with head := q.head + 1 }
    (r2.1, r2.2.1, r1.2 ++ r2.2.2)
termination_by queueCount q
decreasing_by
  simpa [queueCount] using count_step_lt q.head q.tail h

/-- The queued-jump consumption at the top of audio_callback
(modplayer_regroover.c lines 104-110): if has_queued_jump is set, jump
to (queued_order, queued_row), reapply mutes when the interactive
interface is available, and clear the flag.  Not gated on any other
condition. -/
def callbackJumpPhase (ad : AudioData) : AudioData × List EngineCall :=
  if ad.has_queued_jump then
    ({ ad with has_queued_jump := false },
     .setPosition ad.queued_order ad.queued_row :: reapplyCalls ad)
  else (ad, [])

/-- The command/jump phase of audio_callback (modplayer_regroover.c
lines 96-110): drain the queue via process_commands, then consume a
pending queued jump.  The subsequent rendering (pause silence / frame
read) issues no transport calls and is not modelled. -/
def audio_callbackCommands (m : ModuleInfo) (ad : AudioData) (q : CmdQueue) :
    AudioData × CmdQueue × List EngineCall :=
  let r1 := process_commands m ad q
  let r2 := callbackJumpPhase r1.1
  (r2.1, r1.2.1, r1.2.2 ++ r2.2)

/-- Result of one control-loop tick of the state machine: the updated
transport state, the updated prev_row tracker (the static int prev_row
of main), and the engine calls issued. -/
structure TickResult where
  ad : AudioData
  prevRow : Int
  calls : List EngineCall
deriving DecidableEq, Repr

/-- The wrap-detection branch of the pattern-mode block
(modplayer_regroover.c lines 362-379): on a wrap (prev_row was the last
row of loop_pattern and the current row is 0), either switch to a
pending order that is set and differs from loop_order (re-deriving the
pattern, jumping to (pending, 0), reapplying mutes, clearing pending),
or re-snap to (loop_order, 0) with mutes reapplied. -/
def patternWrapPhase (m : ModuleInfo) (ad : AudioData) (prevRow : Int)
    (pos : Pos) : AudioData × List EngineCall :=
  let rows := m.patternRows ad.loop_pattern
  if prevRow = rows - 1 ∧ pos.row = 0 then
    if ad.pending_pattern_mode_order ≠ -1 ∧
        ad.pending_pattern_mode_order ≠ ad.loop_order then
      let ad' := { ad with
        loop_order := ad.pending_pattern_mode_order
        loop_pattern := m.orderPattern ad.pending_pattern_mode_order }
      ({ ad' with pending_pattern_mode_order := -1 },
       .setPosition ad'.loop_order 0 :: reapplyCalls ad')
    else
      (ad, .setPosition ad.loop_order 0 :: reapplyCalls ad)
  else (ad, [])

/-- The drift check of the pattern-mode block (modplayer_regroover.c
lines 383-387): if the observed order differs from loop_order, snap
back to (loop_order, 0), reapply mutes, and reset prev_row to the -1
sentinel; otherwise keep the tracker as is. -/
def patternDriftPhase (ad : AudioData) (prevRow : Int) (pos : Pos) :
    Int × List EngineCall :=
  if pos.order ≠ ad.loop_order then
    (-1, .setPosition ad.loop_order 0 :: reapplyCalls ad)
  else (prevRow, [])

/-- The whole pattern-mode block of the control loop
(modplayer_regroover.c lines 359-388): wrap phase, then
prev_row := cur_row, then the drift check against the (possibly
updated) loop_order. -/
def patternTick (m : ModuleInfo) (ad : AudioData) (prevRow : Int)
    (pos : Pos) : TickResult :=
  let r1 := patternWrapPhase m ad prevRow pos
  let r2 := patternDriftPhase r1.1 pos.row pos
  ⟨r1.1, r2.1, r1.2 ++ r2.2⟩

/-- The loop-till-row block of the control loop (modplayer_regroover.c
lines 390-407): while the observed order matches loop_order, exit the
state (no jump) when the row reaches loop_till_row, snap back to
(loop_order, 0) on a wrap, and track prev_row; when the order does not
match, only reset prev_row to the -1 sentinel (drift tolerated). -/
def loopTillTick (m : ModuleInfo) (ad : AudioData) (prevRow : Int)
    (pos : Pos) : TickResult :=
  let rows := m.patternRows ad.loop_pattern
  if pos.order = ad.loop_order then
    if pos.row = ad.loop_till_row then
      ⟨{ ad with is_looping_till := false }, pos.row, []⟩
    else if prevRow = rows - 1 ∧ pos.row = 0 then
      ⟨ad, pos.row, .setPosition ad.loop_order 0 :: reapplyCalls ad⟩
    else
      ⟨ad, pos.row, []⟩
  else
    ⟨ad, -1, []⟩

/-- The per-iteration state-machine block of the control loop
(modplayer_regroover.c lines 358-413): pattern mode (when not looping
till a row), then loop-till-row, then consumption of a queued song-mode
jump, else nothing. -/
def controlTick (m : ModuleInfo) (ad : AudioData) (prevRow : Int)
    (pos : Pos) : TickResult :=
  if ad.pattern_mode ∧ ¬ad.is_looping_till then
    patternTick m ad prevRow pos
  else if ad.is_looping_till then
    loopTillTick m ad prevRow pos
  else if ad.has_queued_jump then
    ⟨{ ad with has_queued_jump := false }, prevRow,
     .setPosition ad.queued_order ad.queued_row :: reapplyCalls ad⟩
  else
    ⟨ad, prevRow, []⟩

/-- The digit-key channel toggle of interactive.c lines 209-221
(modplayer_regroover.c lines 328-336 is identical minus the
out-of-range diagnostic): an in-range 0-based channel index flips the
stored mute state and pushes gain 0.0/1.0; an out-of-range index
changes nothing, issues no engine call, and prints a diagnostic
(modelled as the returned Bool). -/
def toggle_channel (muteStates : List Bool) (numChannels : Nat) (ch : Nat) :
    List Bool × List EngineCall × Bool :=
  if ch < numChannels then
    let newState := ¬(muteStates.getD ch false)
    (muteStates.set ch newState, [.setChannelVolume ch (gainFor newState)], false)
  else
    (muteStates, [], true)

/-- The mute-all loop (modplayer_regroover.c lines 338-342): set every
mute flag and push gain 0.0 on every channel. -/
def muteAllCalls (n : Nat) : List EngineCall :=
  (List.range n).map (fun ch => .setChannelVolume ch (gainFor true))

/-- The unmute-all loop (modplayer_regroover.c lines 344-348): clear
every mute flag and push gain 1.0 on every channel. -/
def unmuteAllCalls (n : Nat) : List EngineCall :=
  (List.range n).map (fun ch => .setChannelVolume ch (gainFor false))

/-- Result of one key dispatch of the control loop. -/
structure KeyResult where
  ad : AudioData
  queue : CmdQueue
  calls : List EngineCall
  quit : Bool

/-- The key dispatch of the control loop (modplayer_regroover.c lines
290-355).  pos is the engine's position cursor at the time of the
openmpt_module_get_current_order/row reads; the current pattern read by
the s-key handler is the order table's binding for the current order.
The pitch constant 1.05 is modelled as the rational 21/20. -/
def handleKey (m : ModuleInfo) (ad : AudioData) (q : CmdQueue) (pos : Pos)
    (k : Char) : KeyResult :=
  if k = Char.ofNat 27 ∨ k = 'q' ∨ k = 'Q' then
    ⟨ad, q, [], true⟩
  else if k = ' ' then
    ⟨{ ad with paused := ¬ad.paused }, q, [], false⟩
  else if k = 'r' ∨ k = 'R' then
    ⟨ad, q, .setPosition pos.order 0 :: reapplyCalls ad, false⟩
  else if k = 'N' ∨ k = 'n' then
    let next_order := pos.order + 1
    if next_order < m.numOrders then
      ⟨ad, enqueue_command q ⟨.PLAYBACK_QUEUE_ORDER, next_order, 0⟩, [], false⟩
    else ⟨ad, q, [], false⟩
  else if k = 'P' ∨ k = 'p' then
    let prev_order := if pos.order > 0 then pos.order - 1 else 0
    ⟨ad, enqueue_command q ⟨.PLAYBACK_QUEUE_ORDER, prev_order, 0⟩, [], false⟩
  else if k = 'j' ∨ k = 'J' then
    ⟨ad, enqueue_command q ⟨.PLAYBACK_LOOP_TILL_ROW, pos.order, pos.row⟩, [], false⟩
  else if k = 'S' ∨ k = 's' then
    if ¬ad.pattern_mode then
      ⟨{ ad with pattern_mode := true, loop_order := pos.order,
                 loop_pattern := m.orderPattern pos.order,
                 pending_pattern_mode_order := -1 }, q, [], false⟩
    else
      ⟨{ ad with pattern_mode := false }, q, [], false⟩
  else if ad.interactive_ok ∧ '1' ≤ k ∧ k ≤ '9' then
    let ch := k.toNat - '1'.toNat
    let r := toggle_channel ad.mute_states ad.num_channels ch
    ⟨{ ad with mute_states := r.1 }, q, r.2.1, false⟩
  else if ad.interactive_ok ∧ (k = 'm' ∨ k = 'M') then
    ⟨{ ad with mute_states := List.replicate ad.num_channels true }, q,
     muteAllCalls ad.num_channels, false⟩
  else if ad.interactive_ok ∧ (k = 'u' ∨ k = 'U') then
    ⟨{ ad with mute_states := List.replicate ad.num_channels false }, q,
     unmuteAllCalls ad.num_channels, false⟩
  else if k = '+' ∨ k = '=' then
    ⟨{ ad with pitch_factor := ad.pitch_factor * (21/20) }, q, [], false⟩
  else if k = '-' then
    ⟨{ ad with pitch_factor := ad.pitch_factor / (21/20) }, q, [], false⟩
  else
    ⟨ad, q, [], false⟩

/-- The set_position calls among a call list, as (order, row) pairs. -/
def setPositions : List EngineCall → List (Int × Int)
  | [] => []
  | .setPosition o r :: cs => (o, r) :: setPositions cs
  | .setChannelVolume _ _ :: cs => setPositions cs

/-- Effect of a call list on the engine's position cursor: each
set_position overwrites it; volume calls leave it. -/
def applyPosCalls (pos : Pos) : List EngineCall → Pos
  | [] => pos
  | .setPosition o r :: cs => applyPosCalls ⟨o, r⟩ cs
  | .setChannelVolume _ _ :: cs => applyPosCalls pos cs

/-- Effect of a single call on the engine's per-channel volume map. -/
def applyVolCall (v : Nat → Rat) : EngineCall → Nat → Rat
  | .setChannelVolume ch g => fun c => if c = ch then g else v c
  | .setPosition _ _ => v

/-- Effect of a call list on the engine's per-channel volume map. -/
def applyVolCalls (v : Nat → Rat) (cs : List EngineCall) : Nat → Rat :=
  cs.foldl applyVolCall v

/-- A sample module: identity order table, 4-row patterns, 4 orders. -/
def sampleModule : ModuleInfo := ⟨fun o => o, fun _ => 4, 4⟩

/-- A sample transport state as initialised at startup
(modplayer_regroover.c lines 216-232) for a 2-channel module. -/
def sampleAudioData : AudioData :=
  { interactive_ok := true
    num_channels := 2
    mute_states := [false, false]
    pitch_factor := 1
    pattern_mode := false
    loop_pattern := 0
    loop_order := 0
    paused := true
    queued_order := 0
    queued_row := 0
    has_queued_jump := false
    loop_till_row := 0
    is_looping_till := false
    pending_pattern_mode_order := -1 }

/-! Queue lemmas.  The index arithmetic lives in Fin MAX_COMMANDS, so
the per-index facts are finite and proved by decide; the list-level
structure is proved by induction. -/

theorem queueCount_zero_iff (q : CmdQueue) : queueCount q = 0 ↔ q.head = q.tail := by
  have : ∀ h t : Fin MAX_COMMANDS,
      (t.val + MAX_COMMANDS - h.val) % MAX_COMMANDS = 0 ↔ h = t := by decide
  simpa [queueCount] using this q.head q.tail

theorem queueCount_head_step (q : CmdQueue) (hne : q.head ≠ q.tail) :
    queueCount q = queueCount { q with head := q.head + 1 } + 1 := by
  have : ∀ h t : Fin MAX_COMMANDS, h ≠ t →
      (t.val + MAX_COMMANDS - h.val) % MAX_COMMANDS
        = (t.val + MAX_COMMANDS - (h + 1).val) % MAX_COMMANDS + 1 := by decide
  simpa [queueCount] using this q.head q.tail hne

theorem head_add_finMod_zero (h : Fin MAX_COMMANDS) : h + finMod 0 = h := by
  apply Fin.ext
  have := h.isLt
  simp [finMod, Fin.add_def]

theorem head_add_finMod_succ (h : Fin MAX_COMMANDS) (i : Nat) :
    h + finMod (i + 1) = (h + 1) + finMod i := by
  apply Fin.ext
  have := h.isLt
  simp only [finMod, Fin.add_def, MAX_COMMANDS]
  omega

/-- A non-empty queue's pending list is its head slot followed by the
pending list after advancing head. -/
theorem queueList_cons (q : CmdQueue) (hne : q.head ≠ q.tail) :
    queueList q = q.slots q.head :: queueList { q with head := q.head + 1 } := by
  unfold queueList
  rw [queueCount_head_step q hne, List.range_succ_eq_map, List.map_cons,
    List.map_map]
  refine congrArg₂ _ (by rw [head_add_finMod_zero]) ?_
  refine List.map_congr_left ?_
  intro i _
  simp [Function.comp, head_add_finMod_succ]

/-- The drain loop applies exactly the pending commands, in FIFO order,
and leaves head = tail (at the old tail). -/
theorem process_commands_eq (m : ModuleInfo) :
    ∀ (n : Nat) (ad : AudioData) (q : CmdQueue), queueCount q = n →
      process_commands m ad q =
        ((applyAll m ad (queueList q)).1, { q with head := q.tail },
         (applyAll m ad (queueList q)).2) := by
  intro n
  induction n with
  | zero =>
    intro ad q hq
    have he : q.head = q.tail := (queueCount_zero_iff q).mp hq
    have hl : queueList q = [] := by
      unfold queueList
      rw [hq]
      rfl
    rw [process_commands, dif_pos he, hl]
    simp only [applyAll]
    cases q with
    | mk s hh tt =>
      simp only at he
      subst he
      rfl
  | succ n ih =>
    intro ad q hq
    have hne : q.head ≠ q.tail := by
      intro he
      rw [(queueCount_zero_iff q).mpr he] at hq
      exact Nat.succ_ne_zero n hq.symm
    have hq' : queueCount { q with head := q.head + 1 } = n := by
      have := queueCount_head_step q hne
      omega
    rw [process_commands, dif_neg hne, queueList_cons q hne]
    simp only [applyAll]
    rw [ih _ _ hq']

/-- The empty queue has no pending commands. -/
theorem queueList_empty (h0 : Fin MAX_COMMANDS) :
    queueList (emptyQueueAt h0) = [] ∧ queueCount (emptyQueueAt h0) = 0 := by
  have hc : queueCount (emptyQueueAt h0) = 0 := by
    have : ∀ h : Fin MAX_COMMANDS,
        (h.val + MAX_COMMANDS - h.val) % MAX_COMMANDS = 0 := by decide
    simpa [queueCount, emptyQueueAt] using this h0
  refine ⟨?_, hc⟩
  unfold queueList
  rw [hc]
  rfl

/-- Enqueueing into a non-full queue appends: occupancy grows by one
and the pending list gains the command at the end. -/
theorem enqueue_not_full (q : CmdQueue) (c : PlaybackCommand)
    (h : queueCount q < MAX_COMMANDS - 1) :
    queueCount (enqueue_command q c) = queueCount q + 1 ∧
    queueList (enqueue_command q c) = queueList q ++ [c] := by
  have hne : q.tail + 1 ≠ q.head := by
    have : ∀ h t : Fin MAX_COMMANDS,
        (t.val + MAX_COMMANDS - h.val) % MAX_COMMANDS < MAX_COMMANDS - 1 →
          t + 1 ≠ h := by decide
    exact this q.head q.tail h
  have hcnt : queueCount (enqueue_command q c) = queueCount q + 1 := by
    have : ∀ h t : Fin MAX_COMMANDS,
        (t.val + MAX_COMMANDS - h.val) % MAX_COMMANDS < MAX_COMMANDS - 1 →
          ((t + 1).val + MAX_COMMANDS - h.val) % MAX_COMMANDS
            = (t.val + MAX_COMMANDS - h.val) % MAX_COMMANDS + 1 := by decide
    have h2 := this q.head q.tail h
    simp only [enqueue_command, if_pos hne, queueCount]
    simpa [queueCount] using h2
  refine ⟨hcnt, ?_⟩
  have hslot : ∀ i : Nat, i < queueCount q →
      (enqueue_command q c).slots ((enqueue_command q c).head + finMod i)
        = q.slots (q.head + finMod i) := by
    intro i hi
    have hi8 : i < MAX_COMMANDS := by
      have : queueCount q < MAX_COMMANDS := by
        unfold queueCount
        exact Nat.mod_lt _ (by norm_num)
      omega
    have hne2 : q.head + finMod i ≠ q.tail := by
      have : ∀ h t : Fin MAX_COMMANDS, ∀ i : Fin MAX_COMMANDS,
          i.val < (t.val + MAX_COMMANDS - h.val) % MAX_COMMANDS →
            h + finMod i.val ≠ t := by decide
      have h3 := this q.head q.tail ⟨i, hi8⟩ (by simpa [queueCount] using hi)
      simpa using h3
    simp only [enqueue_command, if_pos hne]
    simp [hne2]
  have hlast :
      (enqueue_command q c).slots ((enqueue_command q c).head + finMod (queueCount q)) = c := by
    have htl : q.head + finMod (queueCount q) = q.tail := by
      have : ∀ h t : Fin MAX_COMMANDS,
          h + finMod ((t.val + MAX_COMMANDS - h.val) % MAX_COMMANDS) = t := by decide
      simpa [queueCount] using this q.head q.tail
    simp only [enqueue_command, if_pos hne]
    simp [htl]
  unfold queueList
  rw [hcnt, List.range_succ, List.map_append, List.map_singleton, hlast]
  refine congrArg₂ _ ?_ rfl
  refine List.map_congr_left ?_
  intro i hi
  exact hslot i (List.mem_range.mp hi)

/-- Enqueueing a list of at most capacity-many commands (capacity numbered
from the current occupancy) appends them all in order. -/
theorem enqueueAll_spec (cmds : List PlaybackCommand) :
    ∀ q : CmdQueue, queueCount q + cmds.length ≤ MAX_COMMANDS - 1 →
      queueCount (enqueueAll q cmds) = queueCount q + cmds.length ∧
      queueList (enqueueAll q cmds) = queueList q ++ cmds := by
  induction cmds with
  | nil => intro q _; simp [enqueueAll]
  | cons c cs ih =>
    intro q hlen
    have hq : queueCount q < MAX_COMMANDS - 1 := by
      simp only [List.length_cons] at hlen
      omega
    have h1 := enqueue_not_full q c hq
    have hlen' : queueCount (enqueue_command q c) + cs.length ≤ MAX_COMMANDS - 1 := by
      rw [h1.1]
      simp only [List.length_cons] at hlen
      omega
    have h2 := ih (enqueue_command q c) hlen'
    constructor
    · rw [show enqueueAll q (c :: cs) = enqueueAll (enqueue_command q c) cs from rfl,
        h2.1, h1.1, List.length_cons]
      omega
    · rw [show enqueueAll q (c :: cs) = enqueueAll (enqueue_command q c) cs from rfl,
        h2.2, h1.2]
      simp

/-- The i-th of nine numbered commands used in the capacity scenario. -/
def numberedCmd (i : Nat) : PlaybackCommand :=
  ⟨.PLAYBACK_QUEUE_ORDER, (i : Int), 0⟩

/-- C1 counterexample: enqueueing 9 commands into the empty queue does
NOT leave the first 8 present; only the first 7 survive (the 8th and
9th enqueues hit the full condition (tail+1) % MAX_COMMANDS == head and
are dropped), refuting the claimed capacity of 8. -/
theorem queue_nine_enqueues_drops_eighth :
    queueList (enqueueAll (emptyQueueAt 0) ((List.range 9).map numberedCmd)) ≠
      (List.range 8).map numberedCmd ∧
    queueList (enqueueAll (emptyQueueAt 0) ((List.range 9).map numberedCmd)) =
      (List.range 7).map numberedCmd := by
  constructor
  · decide
  · decide

/-- C1 (amended): the queue array has MAX_COMMANDS = 8 slots but its
effective capacity is 7 (one slot is kept empty to distinguish full from
empty): enqueueing when 7 commands are pending is a silent no-op that
leaves the queue record (contents and occupancy) entirely unchanged, and
enqueueing 9 commands between drains leaves the first 7 present in FIFO
order with the 8th and 9th dropped. -/
theorem queue_capacity_seven (q : CmdQueue) (c : PlaybackCommand)
    (hfull : queueCount q = MAX_COMMANDS - 1) :
    enqueue_command q c = q ∧
    queueList (enqueueAll (emptyQueueAt 0) ((List.range 9).map numberedCmd)) =
      (List.range 7).map numberedCmd := by
  constructor
  · have hfe : q.tail + 1 = q.head := by
      have : ∀ h t : Fin MAX_COMMANDS,
          (t.val + MAX_COMMANDS - h.val) % MAX_COMMANDS = MAX_COMMANDS - 1 →
            t + 1 = h := by decide
      exact this q.head q.tail (by simpa [queueCount] using hfull)
    simp [enqueue_command, hfe]
  · decide

/-- C1 witness: the amended no-op applies to the concrete queue holding
7 commands. -/
theorem queue_capacity_seven_witness :
    enqueue_command (enqueueAll (emptyQueueAt 0) ((List.range 7).map numberedCmd))
        (numberedCmd 7) =
      enqueueAll (emptyQueueAt 0) ((List.range 7).map numberedCmd) :=
  (queue_capacity_seven _ _ (by decide)).1

/-- C2: for every sequence of enqueues that fits the queue capacity
(MAX_COMMANDS - 1 = 7 commands) between drains, a single
process_commands invocation applies exactly those commands, in the exact
order they were enqueued (applyAll is sequential: each command fully
updates the transport state before the next is considered), and leaves
the queue empty with head equal to tail. -/
theorem drain_applies_enqueued_in_order (m : ModuleInfo) (ad : AudioData)
    (h0 : Fin MAX_COMMANDS) (cmds : List PlaybackCommand)
    (hlen : cmds.length ≤ MAX_COMMANDS - 1) :
    process_commands m ad (enqueueAll (emptyQueueAt h0) cmds) =
      ((applyAll m ad cmds).1,
       { enqueueAll (emptyQueueAt h0) cmds with
           head := (enqueueAll (emptyQueueAt h0) cmds).tail },
       (applyAll m ad cmds).2) ∧
    (process_commands m ad (enqueueAll (emptyQueueAt h0) cmds)).2.1.head =
      (process_commands m ad (enqueueAll (emptyQueueAt h0) cmds)).2.1.tail := by
  have hempty := queueList_empty h0
  have hq := enqueueAll_spec cmds (emptyQueueAt h0) (by omega)
  have hlist : queueList (enqueueAll (emptyQueueAt h0) cmds) = cmds := by
    rw [hq.2, hempty.1]
    simp
  have hmain := process_commands_eq m (queueCount (enqueueAll (emptyQueueAt h0) cmds))
    ad (enqueueAll (emptyQueueAt h0) cmds) rfl
  rw [hlist] at hmain
  exact ⟨hmain, by rw [hmain]⟩

/-- C2 witness: draining two concrete enqueued commands applies both in
order and empties the queue. -/
theorem drain_applies_enqueued_in_order_witness :
    (process_commands sampleModule sampleAudioData
        (enqueueAll (emptyQueueAt 0) [numberedCmd 1, numberedCmd 2])).2.1.head =
      (process_commands sampleModule sampleAudioData
        (enqueueAll (emptyQueueAt 0) [numberedCmd 1, numberedCmd 2])).2.1.tail :=
  (drain_applies_enqueued_in_order sampleModule sampleAudioData 0
    [numberedCmd 1, numberedCmd 2] (by decide)).2

/-! Helper lemmas about the effect of call lists. -/

theorem applyPosCalls_append (a b : List EngineCall) :
    ∀ pos : Pos, applyPosCalls pos (a ++ b) = applyPosCalls (applyPosCalls pos a) b := by
  induction a with
  | nil => intro pos; rfl
  | cons c cs ih => intro pos; cases c <;> simp [applyPosCalls, ih]

theorem applyPosCalls_map_volume (l : List Nat) (f : Nat → Rat) (pos : Pos) :
    applyPosCalls pos (l.map (fun ch => .setChannelVolume ch (f ch))) = pos := by
  induction l generalizing pos with
  | nil => rfl
  | cons c cs ih => simp [applyPosCalls, ih]

theorem applyPosCalls_reapply (ad : AudioData) (pos : Pos) :
    applyPosCalls pos (reapplyCalls ad) = pos := by
  unfold reapplyCalls
  split
  · exact applyPosCalls_map_volume _ _ _
  · rfl

theorem setPositions_map_volume (l : List Nat) (f : Nat → Rat) :
    setPositions (l.map (fun ch => .setChannelVolume ch (f ch))) = [] := by
  induction l with
  | nil => rfl
  | cons c cs ih => simp [setPositions, ih]

theorem setPositions_reapply (ad : AudioData) :
    setPositions (reapplyCalls ad) = [] := by
  unfold reapplyCalls
  split
  · exact setPositions_map_volume _ _
  · rfl

/-- C3: while in PatternLoop mode, draining a QueueOrder command issues
no engine call at all and only records pending_pattern_mode_order; the
jump to (pending, 0) — with re-derivation of loop_pattern, mute
reapplication and clearing of the pending order — happens exactly in
the wrap branch of the control-loop tick (previous observed row was the
last row of loop_pattern and the current row is 0) and only when the
pending order is set (not -1) and differs from loop_order; at a wrap
without such a pending order the machine re-snaps to (loop_order, 0);
outside a wrap the wrap phase does nothing. -/
theorem pattern_mode_queue_order_deferred (m : ModuleInfo) (ad : AudioData)
    (cmd : PlaybackCommand) (prevRow : Int) (pos : Pos)
    (hmode : ad.pattern_mode = true) :
    (cmd.type = .PLAYBACK_QUEUE_ORDER →
      applyCommand m ad cmd =
        ({ ad with pending_pattern_mode_order := cmd.order }, [])) ∧
    (prevRow = m.patternRows ad.loop_pattern - 1 → pos.row = 0 →
      ad.pending_pattern_mode_order ≠ -1 →
      ad.pending_pattern_mode_order ≠ ad.loop_order →
      patternWrapPhase m ad prevRow pos =
        ({ ad with loop_order := ad.pending_pattern_mode_order,
                   loop_pattern := m.orderPattern ad.pending_pattern_mode_order,
                   pending_pattern_mode_order := -1 },
         .setPosition ad.pending_pattern_mode_order 0 ::
           reapplyCalls { ad with
             loop_order := ad.pending_pattern_mode_order,
             loop_pattern := m.orderPattern ad.pending_pattern_mode_order })) ∧
    (prevRow = m.patternRows ad.loop_pattern - 1 → pos.row = 0 →
      ¬(ad.pending_pattern_mode_order ≠ -1 ∧
        ad.pending_pattern_mode_order ≠ ad.loop_order) →
      patternWrapPhase m ad prevRow pos =
        (ad, .setPosition ad.loop_order 0 :: reapplyCalls ad)) ∧
    (¬(prevRow = m.patternRows ad.loop_pattern - 1 ∧ pos.row = 0) →
      patternWrapPhase m ad prevRow pos = (ad, [])) := by
  refine ⟨?_, ?_, ?_, ?_⟩
  · intro ht
    simp [applyCommand, ht, hmode]
  · intro h1 h2 h3 h4
    simp [patternWrapPhase, h1, h2, h3, h4]
  · intro h1 h2 h3
    simp only [patternWrapPhase, h1, h2, and_self, if_true, if_neg h3]
  · intro h1
    simp [patternWrapPhase, if_neg h1]

/-- C3 witness: a QueueOrder command drained in pattern mode only
records the pending order. -/
theorem pattern_mode_queue_order_deferred_witness :
    applyCommand sampleModule { sampleAudioData with pattern_mode := true }
        ⟨.PLAYBACK_QUEUE_ORDER, 1, 0⟩ =
      ({ sampleAudioData with pattern_mode := true,
                              pending_pattern_mode_order := 1 }, []) :=
  (pattern_mode_queue_order_deferred sampleModule
    { sampleAudioData with pattern_mode := true }
    ⟨.PLAYBACK_QUEUE_ORDER, 1, 0⟩ 0 ⟨0, 0⟩ rfl).1 rfl

/-- C4: in PatternLoop mode the tick's drift check snaps straight back:
whenever the observed order differs from the machine's loop_order, the
drift phase issues an immediate set_position (loop_order, 0) (with mute
reapplication) regardless of the current row and resets the prev_row
tracker to the -1 sentinel.  Consequently the observed order never
persists outside loop_order across a tick: after applying the calls of
any pattern-mode tick, the engine's order equals the machine's
loop_order, whatever position was observed.  (controlTick runs this
block exactly in pattern mode while not looping-till.) -/
theorem pattern_mode_drift_snapback (m : ModuleInfo) (ad : AudioData)
    (prevRow : Int) (pos : Pos)
    (hmode : ad.pattern_mode = true) (hnl : ad.is_looping_till = false) :
    controlTick m ad prevRow pos = patternTick m ad prevRow pos ∧
    (pos.order ≠ ad.loop_order →
      patternDriftPhase ad prevRow pos =
        (-1, .setPosition ad.loop_order 0 :: reapplyCalls ad)) ∧
    (applyPosCalls pos (patternTick m ad prevRow pos).calls).order =
      (patternTick m ad prevRow pos).ad.loop_order := by
  refine ⟨?_, ?_, ?_⟩
  · simp [controlTick, hmode, hnl]
  · intro hdrift
    simp [patternDriftPhase, hdrift]
  · simp only [patternTick, patternWrapPhase, patternDriftPhase]
    split_ifs <;>
      simp_all [applyPosCalls_append, applyPosCalls, applyPosCalls_reapply]

/-- C4 witness: a concrete drifted observation (order 1 while looping
order 0) triggers the snap-back and the sentinel reset. -/
theorem pattern_mode_drift_snapback_witness :
    patternDriftPhase { sampleAudioData with pattern_mode := true } 3 ⟨1, 2⟩ =
      (-1, .setPosition 0 0 ::
        reapplyCalls { sampleAudioData with pattern_mode := true }) :=
  (pattern_mode_drift_snapback sampleModule
    { sampleAudioData with pattern_mode := true } 3 ⟨1, 2⟩ rfl rfl).2.1 (by decide)

/-- A transport state in LoopTillRow mode: looping order 1 (pattern 1,
4 rows under sampleModule) until row 2. -/
def loopTillAD : AudioData :=
  { sampleAudioData with is_looping_till := true, loop_order := 1,
                         loop_pattern := 1, loop_till_row := 2 }

/-- C5 counterexample: playback is NOT confined to loop_order while in
the LoopTillRow state.  With the machine looping order 1 till row 2, a
tick observing position (2, 3) — outside loop_order — issues no engine
call at all, keeps is_looping_till set, and merely resets the prev_row
tracker to the -1 sentinel (drift tolerated), so playback continues
unconstrained at order 2; the order-wrap out of order 1 triggered no
snap back either, because the loop-till wrap check only runs while the
observed order still equals loop_order. -/
theorem loop_till_drift_tolerated_cex :
    loopTillAD.is_looping_till = true ∧
    (2 : Int) ≠ loopTillAD.loop_order ∧
    loopTillTick sampleModule loopTillAD 3 ⟨2, 3⟩ = ⟨loopTillAD, -1, []⟩ := by
  refine ⟨rfl, by decide, ?_⟩
  decide

/-- C5 (amended): engaging a LoopTillRow(order, row) command during the
drain immediately binds loop_order/loop_pattern/stop row, enters the
LoopTillRow state, jumps to (order, 0) and reapplies mutes.  Thereafter,
while the observed order equals loop_order, a wrap (previous observed
row was the last row of loop_pattern and current row is 0, checked
after the stop row) snaps back to (loop_order, 0) with mutes reapplied,
and the state exits exactly when the observed (order, row) equals
(loop_order, stop_row), without issuing any jump; when the observed
order differs from loop_order the tick only resets the prev_row tracker
to -1 and issues no call (drift is tolerated, so playback is not
forcibly confined to loop_order). -/
theorem loop_till_row_semantics (m : ModuleInfo) (ad : AudioData)
    (cmd : PlaybackCommand) (prevRow : Int) (pos : Pos) :
    (cmd.type = .PLAYBACK_LOOP_TILL_ROW →
      applyCommand m ad cmd =
        ({ ad with loop_order := cmd.order,
                   loop_pattern := m.orderPattern cmd.order,
                   loop_till_row := cmd.row, is_looping_till := true },
         .setPosition cmd.order 0 ::
           reapplyCalls { ad with loop_order := cmd.order,
                                  loop_pattern := m.orderPattern cmd.order,
                                  loop_till_row := cmd.row,
                                  is_looping_till := true })) ∧
    (pos.order = ad.loop_order → pos.row = ad.loop_till_row →
      loopTillTick m ad prevRow pos =
        ⟨{ ad with is_looping_till := false }, pos.row, []⟩) ∧
    (pos.order = ad.loop_order → pos.row ≠ ad.loop_till_row →
      prevRow = m.patternRows ad.loop_pattern - 1 → pos.row = 0 →
      loopTillTick m ad prevRow pos =
        ⟨ad, pos.row, .setPosition ad.loop_order 0 :: reapplyCalls ad⟩) ∧
    (pos.order = ad.loop_order → pos.row ≠ ad.loop_till_row →
      ¬(prevRow = m.patternRows ad.loop_pattern - 1 ∧ pos.row = 0) →
      loopTillTick m ad prevRow pos = ⟨ad, pos.row, []⟩) ∧
    (pos.order ≠ ad.loop_order →
      loopTillTick m ad prevRow pos = ⟨ad, -1, []⟩) ∧
    (ad.is_looping_till = true →
      ((loopTillTick m ad prevRow pos).ad.is_looping_till = false ↔
        (pos.order = ad.loop_order ∧ pos.row = ad.loop_till_row))) := by
  refine ⟨?_, ?_, ?_, ?_, ?_, ?_⟩
  · intro ht
    simp [applyCommand, ht]
  · intro h1 h2
    simp [loopTillTick, h1, h2]
  · intro h1 h2 h3 h4
    rw [h4] at h2
    simp [loopTillTick, h1, h2, h3, h4]
  · intro h1 h2 h3
    simp only [loopTillTick, if_pos h1, if_neg h2, if_neg h3]
  · intro h1
    simp [loopTillTick, h1]
  · intro hlt
    simp only [loopTillTick]
    split_ifs <;> simp_all


/-- C5 witness: the amended exit clause at a concrete observation of
(loop_order, stop_row). -/
theorem loop_till_row_semantics_witness :
    loopTillTick sampleModule loopTillAD (-1) ⟨1, 2⟩ =
      ⟨{ loopTillAD with is_looping_till := false }, 2, []⟩ :=
  (loop_till_row_semantics sampleModule loopTillAD
    ⟨.PLAYBACK_LOOP_TILL_ROW, 1, 2⟩ (-1) ⟨1, 2⟩).2.1 rfl rfl

/-- A transport state in LoopTillRow mode whose stop row is 0. -/
def loopTillZeroAD : AudioData :=
  { sampleAudioData with is_looping_till := true, loop_order := 1,
                         loop_pattern := 1, loop_till_row := 0 }

/-- C10: when the stop row of a LoopTillRow command is 0 (the j key
pressed while the current row is 0), the engage-time jump already
targets the exit observation (order, 0); the first subsequent tick that
observes (loop_order, 0) leaves the LoopTillRow state without issuing a
jump, ticks observing any other position keep the state, and no
loop-till tick with stop row 0 ever issues an engine call — the wrap
snap-back is unreachable, so the pattern is never actually looped. -/
theorem loop_till_row_zero_never_loops (m : ModuleInfo) (ad : AudioData)
    (prevRow : Int) (pos : Pos) (cmd : PlaybackCommand)
    (hlt : ad.is_looping_till = true) (hstop : ad.loop_till_row = 0) :
    (pos.order = ad.loop_order → pos.row = 0 →
      loopTillTick m ad prevRow pos =
        ⟨{ ad with is_looping_till := false }, 0, []⟩) ∧
    (pos.order ≠ ad.loop_order ∨ pos.row ≠ 0 →
      (loopTillTick m ad prevRow pos).ad.is_looping_till = true) ∧
    (loopTillTick m ad prevRow pos).calls = [] ∧
    (cmd.type = .PLAYBACK_LOOP_TILL_ROW → cmd.row = 0 →
      setPositions (applyCommand m ad cmd).2 = [(cmd.order, 0)]) := by
  refine ⟨?_, ?_, ?_, ?_⟩
  · intro h1 h2
    simp [loopTillTick, h1, h2, hstop]
  · intro h1
    rcases h1 with h1 | h1
    · simp [loopTillTick, h1, hlt]
    · simp only [loopTillTick]
      split_ifs <;> simp_all
  · simp only [loopTillTick]
    split_ifs <;> simp_all
  · intro h1 h2
    simp [applyCommand, h1, setPositions, setPositions_reapply]

/-- C10 witness: concrete tick observing (loop_order, 0) with stop row
0 exits immediately with no engine call. -/
theorem loop_till_row_zero_never_loops_witness :
    loopTillTick sampleModule loopTillZeroAD (-1) ⟨1, 0⟩ =
      ⟨{ loopTillZeroAD with is_looping_till := false }, 0, []⟩ :=
  (loop_till_row_zero_never_loops sampleModule loopTillZeroAD (-1) ⟨1, 0⟩
    ⟨.PLAYBACK_LOOP_TILL_ROW, 1, 0⟩ rfl rfl).1 rfl rfl

/-- C6: in Song mode (pattern_mode off), draining a QueueOrder command
sets the one-shot deferred jump (queued_order, queued_row,
has_queued_jump) and issues no call; any render-callback invocation
that observes the flag set consumes it — jumping to
(queued_order, queued_row) and reapplying mutes — for every state,
with no wrap condition or any other gating; and the flag never survives
a callback invocation (the command/jump phase always ends with
has_queued_jump clear). -/
theorem song_mode_queued_jump (m : ModuleInfo) (ad : AudioData)
    (cmd : PlaybackCommand) (q : CmdQueue) :
    (ad.pattern_mode = false → cmd.type = .PLAYBACK_QUEUE_ORDER →
      applyCommand m ad cmd =
        ({ ad with queued_order := cmd.order, queued_row := cmd.row,
                   has_queued_jump := true }, [])) ∧
    (ad.has_queued_jump = true →
      callbackJumpPhase ad =
        ({ ad with has_queued_jump := false },
         .setPosition ad.queued_order ad.queued_row :: reapplyCalls ad)) ∧
    (audio_callbackCommands m ad q).1.has_queued_jump = false := by
  refine ⟨?_, ?_, ?_⟩
  · intro hmode ht
    simp [applyCommand, ht, hmode]
  · intro hflag
    simp [callbackJumpPhase, hflag]
  · simp only [audio_callbackCommands, callbackJumpPhase]
    split_ifs with hflag
    · rfl
    · simpa using hflag

/-- C6 witness: a concrete state with the flag set is consumed by the
callback jump phase. -/
theorem song_mode_queued_jump_witness :
    callbackJumpPhase
        { sampleAudioData with has_queued_jump := true,
                               queued_order := 2, queued_row := 1 } =
      ({ sampleAudioData with has_queued_jump := false,
                              queued_order := 2, queued_row := 1 },
       .setPosition 2 1 :: reapplyCalls
         { sampleAudioData with has_queued_jump := true,
                                queued_order := 2, queued_row := 1 }) :=
  (song_mode_queued_jump sampleModule
    { sampleAudioData with has_queued_jump := true,
                           queued_order := 2, queued_row := 1 }
    ⟨.PLAYBACK_QUEUE_ORDER, 2, 1⟩ (emptyQueueAt 0)).2.1 rfl

/-- C7 counterexample: a key handler does mutate the Position Cursor —
the r retrigger handler, which runs on the control loop, issues
set_position(current order, 0) directly, so applying QueueOrder /
LoopTillRow during the drain is not the only operation in the system
that mutates the Position Cursor. -/
theorem retrigger_key_mutates_position_cex :
    setPositions
        (handleKey sampleModule sampleAudioData (emptyQueueAt 0) ⟨2, 3⟩ 'r').calls =
      [(2, 0)] ∧
    ((2 : Int), (0 : Int)) :: ([] : List (Int × Int)) ≠ [] := by
  constructor
  · decide
  · decide

/-- C7 (amended): during the queue drain, only a LoopTillRow command
issues a set-position call (a QueueOrder command issues none — it only
sets deferred flags); among the key handlers of the control loop,
exactly the r retrigger handler issues a set-position call (to
(current order, 0)); every other key handler issues none.  (The control
loop tick's snap-backs and the callback's queued-jump consumption,
modelled by controlTick and callbackJumpPhase, are the remaining
mutation sites.) -/
theorem position_mutation_sites (m : ModuleInfo) (ad : AudioData)
    (q : CmdQueue) (pos : Pos) (k : Char) (cmd : PlaybackCommand) :
    (cmd.type = .PLAYBACK_QUEUE_ORDER →
      setPositions (applyCommand m ad cmd).2 = []) ∧
    (cmd.type = .PLAYBACK_LOOP_TILL_ROW →
      setPositions (applyCommand m ad cmd).2 = [(cmd.order, 0)]) ∧
    (k ≠ 'r' → k ≠ 'R' → setPositions (handleKey m ad q pos k).calls = []) ∧
    (k = 'r' ∨ k = 'R' →
      setPositions (handleKey m ad q pos k).calls = [(pos.order, 0)]) := by
  refine ⟨?_, ?_, ?_, ?_⟩
  · intro ht
    simp only [applyCommand, ht]
    split_ifs <;> rfl
  · intro ht
    simp [applyCommand, ht, setPositions, setPositions_reapply]
  · intro h1 h2
    unfold handleKey
    by_cases c1 : k = Char.ofNat 27 ∨ k = 'q' ∨ k = 'Q'
    · rw [if_pos c1]
      rfl
    · rw [if_neg c1]
      by_cases c2 : k = ' '
      · rw [if_pos c2]
        rfl
      · rw [if_neg c2]
        rw [if_neg (show ¬(k = 'r' ∨ k = 'R') from fun hc =>
          hc.elim (fun hc => h1 hc) (fun hc => h2 hc))]
        by_cases c4 : k = 'N' ∨ k = 'n'
        · rw [if_pos c4]
          dsimp only
          split_ifs <;> rfl
        · rw [if_neg c4]
          by_cases c5 : k = 'P' ∨ k = 'p'
          · rw [if_pos c5]
            rfl
          · rw [if_neg c5]
            by_cases c6 : k = 'j' ∨ k = 'J'
            · rw [if_pos c6]
              rfl
            · rw [if_neg c6]
              by_cases c7 : k = 'S' ∨ k = 's'
              · rw [if_pos c7]
                split_ifs <;> rfl
              · rw [if_neg c7]
                by_cases c8 : ad.interactive_ok = true ∧ '1' ≤ k ∧ k ≤ '9'
                · rw [if_pos c8]
                  dsimp only [toggle_channel]
                  split_ifs <;> rfl
                · rw [if_neg c8]
                  by_cases c9 : ad.interactive_ok = true ∧ (k = 'm' ∨ k = 'M')
                  · rw [if_pos c9]
                    dsimp only [muteAllCalls]
                    exact setPositions_map_volume _ _
                  · rw [if_neg c9]
                    by_cases c10 : ad.interactive_ok = true ∧ (k = 'u' ∨ k = 'U')
                    · rw [if_pos c10]
                      dsimp only [unmuteAllCalls]
                      exact setPositions_map_volume _ _
                    · rw [if_neg c10]
                      by_cases c11 : k = '+' ∨ k = '='
                      · rw [if_pos c11]
                        rfl
                      · rw [if_neg c11]
                        by_cases c12 : k = '-'
                        · rw [if_pos c12]
                          rfl
                        · rw [if_neg c12]
                          rfl
  · intro h1
    unfold handleKey
    have hk : ¬(k = Char.ofNat 27 ∨ k = 'q' ∨ k = 'Q') := by
      rcases h1 with h1 | h1 <;> subst h1 <;> decide
    have hsp : ¬(k = ' ') := by
      rcases h1 with h1 | h1 <;> subst h1 <;> decide
    rw [if_neg hk, if_neg hsp, if_pos h1]
    simp [setPositions, setPositions_reapply]

/-- C7 witness: the amended no-jump clause at the concrete key n. -/
theorem position_mutation_sites_witness :
    setPositions
        (handleKey sampleModule sampleAudioData (emptyQueueAt 0) ⟨0, 0⟩ 'n').calls =
      [] :=
  (position_mutation_sites sampleModule sampleAudioData (emptyQueueAt 0) ⟨0, 0⟩
    'n' ⟨.PLAYBACK_QUEUE_ORDER, 0, 0⟩).2.2.1 (by decide) (by decide)

/-- C8: toggling a channel whose 0-based index is at least the channel
count is a no-op with a diagnostic: the mute vector is returned
unchanged and no engine call is issued; toggling an in-range channel
flips the stored mute state and immediately pushes gain 0.0 when the
channel becomes muted and 1.0 when it becomes unmuted. -/
theorem toggle_channel_range_check (ms : List Bool) (n ch : Nat) :
    (n ≤ ch → toggle_channel ms n ch = (ms, [], true)) ∧
    (ch < n →
      toggle_channel ms n ch =
        (ms.set ch (¬(ms.getD ch false)),
         [.setChannelVolume ch (gainFor (¬(ms.getD ch false)))], false)) := by
  constructor
  · intro hge
    simp [toggle_channel, Nat.not_lt.mpr hge]
  · intro hlt
    simp [toggle_channel, hlt]

/-- C8 witness: channel index 5 on a 2-channel module is rejected as a
no-op with the diagnostic, and channel 1 toggles with a volume push. -/
theorem toggle_channel_range_check_witness :
    toggle_channel [false, false] 2 5 = ([false, false], [], true) ∧
    toggle_channel [false, false] 2 1 =
      ([false, true], [.setChannelVolume 1 (gainFor true)], false) :=
  ⟨(toggle_channel_range_check [false, false] 2 5).1 (by decide),
   by
    have h := (toggle_channel_range_check [false, false] 2 1).2 (by decide)
    simpa using h⟩

/-- Pointwise effect of pushing volumes for channels 0..n-1. -/
theorem applyVolCalls_range (n : Nat) (f : Nat → Rat) (v : Nat → Rat) (c : Nat) :
    applyVolCalls v ((List.range n).map (fun ch => .setChannelVolume ch (f ch))) c =
      if c < n then f c else v c := by
  induction n generalizing v with
  | zero => simp [applyVolCalls]
  | succ n ih =>
    rw [List.range_succ, List.map_append]
    unfold applyVolCalls
    rw [List.foldl_append]
    show applyVolCall
      (applyVolCalls v ((List.range n).map (fun ch => .setChannelVolume ch (f ch))))
      (.setChannelVolume n (f n)) c = _
    simp only [applyVolCall]
    by_cases hc : c = n
    · simp [hc]
    · simp only [hc, if_false]
      rw [ih]
      rcases Nat.lt_trichotomy c n with h | h | h
      · rw [if_pos h, if_pos (Nat.lt_succ_of_lt h)]
      · exact absurd h hc
      · rw [if_neg (by omega), if_neg (by omega)]

/-- Pointwise characterisation of one reapply_mutes pass. -/
theorem applyVolCalls_reapply_eq (ad : AudioData) (v : Nat → Rat) (c : Nat) :
    applyVolCalls v (reapplyCalls ad) c =
      if ad.interactive_ok ∧ c < ad.num_channels then
        gainFor (ad.mute_states.getD c false)
      else v c := by
  unfold reapplyCalls
  by_cases hio : ad.interactive_ok = true
  · rw [if_pos hio, applyVolCalls_range]
    by_cases hc : c < ad.num_channels
    · rw [if_pos hc, if_pos ⟨hio, hc⟩]
    · rw [if_neg hc, if_neg (fun h => hc h.2)]
  · rw [if_neg hio]
    rw [show applyVolCalls v [] c = v c from rfl,
      if_neg (fun h => hio h.1)]

/-- C9: reapply_mutes is idempotent: for every mute-vector state and
every prior engine volume map, applying the reapply pass twice leaves
the engine with exactly the same per-channel volume settings as
applying it once; and when the interactive interface is available, a
single pass sets every channel below num_channels to 0.0 when muted and
1.0 when unmuted. -/
theorem reapply_mutes_idempotent (ad : AudioData) (v : Nat → Rat) :
    applyVolCalls (applyVolCalls v (reapplyCalls ad)) (reapplyCalls ad) =
      applyVolCalls v (reapplyCalls ad) ∧
    (ad.interactive_ok = true → ∀ ch, ch < ad.num_channels →
      applyVolCalls v (reapplyCalls ad) ch =
        gainFor (ad.mute_states.getD ch false)) := by
  constructor
  · funext c
    rw [applyVolCalls_reapply_eq, applyVolCalls_reapply_eq]
    split_ifs <;> rfl
  · intro hio ch hch
    rw [applyVolCalls_reapply_eq]
    simp [hio, hch]

/-- C9 witness: one concrete reapply pass on the sample state sets
channel 1 to the gain of its mute flag. -/
theorem reapply_mutes_idempotent_witness :
    applyVolCalls (fun _ => (5 : Rat)) (reapplyCalls sampleAudioData) 1 =
      gainFor (sampleAudioData.mute_states.getD 1 false) :=
  (reapply_mutes_idempotent sampleAudioData (fun _ => (5 : Rat))).2 rfl 1
    (by decide)

end Modplayer
